import Mathlib

/-
Verification of the token lifecycle core of `miniservicio-auth/index.js`:
token generation (`generarToken`), the in-memory token store
(`tokensTemporales`, a JS `Map` from email to record), the issuance
handler (`POST /enviar-token`), the two lookup handlers
(`POST /token-enviado`, `GET /token-enviado`) delegating to
`obtenerToken`, and the periodic expiry sweep (`setInterval` body).

Time is modelled in milliseconds as `Nat`.  The JS `Map` is modelled as
an association list with the `Map` operations `get`, `set` (update in
place or append) and `delete`.  Request-body / query-string fields are
modelled as `Option String` (`none` = absent), and JS falsiness of such
a value (`!correo`) is the predicate `falsy`.
-/

set_option maxHeartbeats 1000000

namespace MiniAuth

/-- One value stored in `tokensTemporales`: the object built at
`tokensTemporales.set(correo, { token, tipo, creado, expira })`. -/
structure TokenRecord where
  token : String
  tipo : String
  creado : Nat
  expira : Nat
deriving Repr, DecidableEq

/-- The in-memory store `tokensTemporales` (a JS `Map` keyed by email). -/
abbrev Store := List (String × TokenRecord)

/-- `Map.prototype.get`: value of the first (and, for a JS map, only)
entry with this key. -/
def Store.get : Store → String → Option TokenRecord
  | [], _ => none
  | (k, v) :: rest, key => if k = key then some v else Store.get rest key

/-- `Map.prototype.set`: replace the value at an existing key in place,
or append a new entry. -/
def Store.set : Store → String → TokenRecord → Store
  | [], key, v => [(key, v)]
  | (k, w) :: rest, key, v =>
      if k = key then (key, v) :: rest else (k, w) :: Store.set rest key v

/-- `Map.prototype.delete`: remove the entry with this key. -/
def Store.delete : Store → String → Store
  | [], _ => []
  | (k, w) :: rest, key =>
      if k = key then rest else (k, w) :: Store.delete rest key

/-- The JS `Map` key-uniqueness invariant: at most one entry per email. -/
def Store.WF (s : Store) : Prop := (s.map Prod.fst).Nodup

instance (s : Store) : Decidable s.WF := by
  unfold Store.WF; infer_instance

/-- JS falsiness of a request-body / query-string field: `undefined`
(absent, `none`) and the empty string are falsy; every other string is
truthy. -/
def falsy : Option String → Bool
  | none => true
  | some s => decide (s = "")

/-- The standard base64 alphabet, index 0 to 63. -/
def base64Alphabet : List Char :=
  ['A', 'B', 'C', 'D', 'E', 'F', 'G', 'H', 'I', 'J', 'K', 'L', 'M',
   'N', 'O', 'P', 'Q', 'R', 'S', 'T', 'U', 'V', 'W', 'X', 'Y', 'Z',
   'a', 'b', 'c', 'd', 'e', 'f', 'g', 'h', 'i', 'j', 'k', 'l', 'm',
   'n', 'o', 'p', 'q', 'r', 's', 't', 'u', 'v', 'w', 'x', 'y', 'z',
   '0', '1', '2', '3', '4', '5', '6', '7', '8', '9', '+', '/']

/-- Character of a 6-bit group in base64. -/
def base64Char (n : Nat) : Char := base64Alphabet.getD n 'A'

/-- The four 6-bit groups of a 3-byte block, as base64 encodes it. -/
def sextets3 (b0 b1 b2 : Nat) : List Nat :=
  [b0 / 4, (b0 % 4) * 16 + b1 / 16, (b1 % 16) * 4 + b2 / 64, b2 % 64]

/-- JS `\w` (word character): letter, digit or underscore; `\W` in
`replace(/\W/g, "")` removes exactly the non-word characters. -/
def isWordChar (c : Char) : Bool :=
  c.isAlpha || c.isDigit || c = '_'

/-- `generarToken`, as a function of the 6 random bytes produced by
`crypto.randomBytes(6)`: base64-encode the 6 bytes (8 characters, no
padding), drop the non-word characters (`replace(/\W/g, "")`), then
`substring(0, 8)`.  Each argument is reduced mod 256 to a byte. -/
def generarToken (b0 b1 b2 b3 b4 b5 : Nat) : String :=
  let chars := (sextets3 (b0 % 256) (b1 % 256) (b2 % 256) ++
    sextets3 (b3 % 256) (b4 % 256) (b5 % 256)).map base64Char
  String.mk ((chars.filter isWordChar).take 8)

/-- Outcome of the `POST /enviar-token` handler, as seen by the caller. -/
inductive IssueResult where
  /-- HTTP 400: missing field or bad `tipo` (ValidationError). -/
  | validationError (error : String)
  /-- HTTP 500: `transporter.sendMail` rejected (DeliveryError),
  carrying the underlying error message (`detalle`). -/
  | deliveryError (detalle : String)
  /-- HTTP 200: mail sent, record committed; body carries the token and
  the `tipo`. -/
  | ok (token : String) (tipo : String)
deriving Repr, DecidableEq

/-- Whether an `IssueResult` is the 400 validation failure. -/
def IssueResult.isValidation : IssueResult → Bool
  | .validationError _ => true
  | _ => false

/-- Full observable outcome of one `POST /enviar-token` request: the
HTTP result, the store afterwards, the `auth_tokens_generated_total`
counter afterwards, and whether `transporter.sendMail` was invoked. -/
structure IssueOutcome where
  result : IssueResult
  store : Store
  tokensCounter : Nat
  mailInvoked : Bool
deriving Repr, DecidableEq

/-- The `POST /enviar-token` handler.  `correo`/`tipo` are the request
body fields; `token` is the value `generarToken()` returns on this call;
`sendError` is the mail collaborator outcome (`none` = resolved,
`some msg` = rejected with message `msg`); `now` is the current time in
ms; `ttlMin` is `TOKEN_EXP_MIN` (defaulted to 15 by the caller of this
model when the variable is unset); `s` and `counter` are the store and
the counter before the request. -/
def enviarToken (correo tipo : Option String) (token : String)
    (sendError : Option String) (now ttlMin : Nat)
    (s : Store) (counter : Nat) : IssueOutcome :=
  if falsy correo || falsy tipo then
    ⟨.validationError "Faltan datos: correo o tipo", s, counter, false⟩
  else if (tipo.getD "") ≠ "registro" ∧ (tipo.getD "") ≠ "recuperacion" then
    ⟨.validationError "Tipo debe ser registro o recuperacion", s, counter, false⟩
  else
    let counter1 := counter + 1
    match sendError with
    | some msg => ⟨.deliveryError msg, s, counter1, true⟩
    | none =>
        ⟨.ok token (tipo.getD ""),
         Store.set s (correo.getD "")
           ⟨token, tipo.getD "", now, now + ttlMin * 60000⟩,
         counter1, true⟩

/-- Outcome of `obtenerToken(correo, res)`. -/
inductive LookupResult where
  /-- HTTP 404: no record for this email. -/
  | notFound
  /-- HTTP 410: record found but expired (and evicted). -/
  | expired
  /-- HTTP 200: the full record, echoed with the email. -/
  | ok (correo : String) (record : TokenRecord)
deriving Repr, DecidableEq

/-- `obtenerToken`: look the email up in `tokensTemporales`; on a miss
respond 404; if `ahora > expira` delete the entry and respond 410;
otherwise respond 200 with the unmodified record.  Returns the response
together with the store afterwards. -/
def obtenerToken (correo : String) (s : Store) (ahora : Nat) :
    LookupResult × Store :=
  match Store.get s correo with
  | none => (.notFound, s)
  | some dataToken =>
      if ahora > dataToken.expira then (.expired, Store.delete s correo)
      else (.ok correo dataToken, s)

/-- Outcome of a `/token-enviado` request. -/
inductive LookupHttpResult where
  /-- HTTP 400: `correo` missing (falsy). -/
  | missingCorreo
  /-- Delegated to `obtenerToken`. -/
  | result (r : LookupResult)
deriving Repr, DecidableEq

/-- The `POST /token-enviado` handler: reads `correo` from the request
body, rejects a falsy value with 400, else delegates to `obtenerToken`. -/
def postTokenEnviado (correo : Option String) (s : Store) (ahora : Nat) :
    LookupHttpResult × Store :=
  if falsy correo then (.missingCorreo, s)
  else
    let r := obtenerToken (correo.getD "") s ahora
    (.result r.1, r.2)

/-- The `GET /token-enviado` handler: reads `correo` from the query
string, rejects a falsy value with 400, else delegates to
`obtenerToken`. -/
def getTokenEnviado (correo : Option String) (s : Store) (ahora : Nat) :
    LookupHttpResult × Store :=
  if falsy correo then (.missingCorreo, s)
  else
    let r := obtenerToken (correo.getD "") s ahora
    (.result r.1, r.2)

/-- One pass of the `setInterval` sweep body: delete every entry with
`ahora > expira`, keep the rest. -/
def limpiezaTokens (s : Store) (ahora : Nat) : Store :=
  s.filter (fun kv => ! decide (ahora > kv.2.expira))

theorem Store.get_set_self (s : Store) (k : String) (v : TokenRecord) :
    Store.get (Store.set s k v) k = some v := by
  induction s with
  | nil => simp [Store.set, Store.get]
  | cons hd tl ih =>
    obtain ⟨a, w⟩ := hd
    by_cases h : a = k <;> simp [Store.set, Store.get, h, ih]

theorem Store.get_eq_none_of_not_mem (s : Store) (k : String)
    (h : k ∉ s.map Prod.fst) : Store.get s k = none := by
  induction s with
  | nil => rfl
  | cons hd tl ih =>
    obtain ⟨a, w⟩ := hd
    simp only [List.map_cons, List.mem_cons] at h
    push_neg at h
    have hak : ¬ a = k := fun hh => h.1 hh.symm
    simp [Store.get, hak, ih h.2]

theorem Store.get_delete_self (s : Store) (k : String) (hwf : s.WF) :
    Store.get (Store.delete s k) k = none := by
  induction s with
  | nil => rfl
  | cons hd tl ih =>
    obtain ⟨a, w⟩ := hd
    simp only [Store.WF, List.map_cons, List.nodup_cons] at hwf
    by_cases h : a = k
    · subst h
      simpa [Store.delete] using
        Store.get_eq_none_of_not_mem tl a hwf.1
    · simp [Store.delete, h, Store.get, ih hwf.2]

theorem Store.mem_keys_set (s : Store) (k x : String) (v : TokenRecord)
    (hx : x ∈ (Store.set s k v).map Prod.fst) :
    x ∈ s.map Prod.fst ∨ x = k := by
  induction s with
  | nil =>
    simp only [Store.set, List.map_cons, List.map_nil, List.mem_singleton] at hx
    right; exact hx
  | cons hd tl ih =>
    obtain ⟨a, w⟩ := hd
    by_cases h : a = k
    · simp only [Store.set, if_pos h, List.map_cons, List.mem_cons] at hx
      rcases hx with hx | hx
      · right; exact hx
      · left; simp [hx]
    · simp only [Store.set, if_neg h, List.map_cons, List.mem_cons] at hx
      rcases hx with hx | hx
      · left; simp [hx]
      · rcases ih hx with h2 | h2
        · left; simp [h2]
        · right; exact h2

theorem Store.wf_set (s : Store) (k : String) (v : TokenRecord)
    (hwf : s.WF) : (Store.set s k v).WF := by
  induction s with
  | nil => simp [Store.set, Store.WF]
  | cons hd tl ih =>
    obtain ⟨a, w⟩ := hd
    simp only [Store.WF, List.map_cons, List.nodup_cons] at hwf
    by_cases h : a = k
    · subst h
      have hset : Store.set ((a, w) :: tl) a v = (a, v) :: tl := by
        simp [Store.set]
      rw [hset]
      simp only [Store.WF, List.map_cons]
      exact List.nodup_cons.mpr hwf
    · have hmem : a ∉ (Store.set tl k v).map Prod.fst := by
        intro hcon
        rcases Store.mem_keys_set tl k a v hcon with h2 | h2
        · exact hwf.1 h2
        · exact h h2
      simp only [Store.set, if_neg h, Store.WF, List.map_cons,
        List.nodup_cons]
      exact ⟨hmem, ih hwf.2⟩

theorem Store.keys_delete_sublist (s : Store) (k : String) :
    ((Store.delete s k).map Prod.fst).Sublist (s.map Prod.fst) := by
  induction s with
  | nil => simp [Store.delete]
  | cons hd tl ih =>
    obtain ⟨a, w⟩ := hd
    by_cases h : a = k
    · simp only [Store.delete, if_pos h, List.map_cons]
      exact List.sublist_cons_self _ _
    · simp only [Store.delete, if_neg h, List.map_cons]
      exact List.Sublist.cons₂ _ ih

theorem Store.wf_delete (s : Store) (k : String) (hwf : s.WF) :
    (Store.delete s k).WF := by
  induction s with
  | nil => simp [Store.delete, Store.WF]
  | cons hd tl ih =>
    obtain ⟨a, w⟩ := hd
    simp only [Store.WF, List.map_cons, List.nodup_cons] at hwf
    by_cases h : a = k
    · simp only [Store.delete, if_pos h]
      exact hwf.2
    · simp only [Store.delete, if_neg h, Store.WF, List.map_cons,
        List.nodup_cons]
      exact ⟨fun hc => hwf.1 ((Store.keys_delete_sublist tl k).mem hc),
        ih hwf.2⟩

theorem base64Char_word_alnum (n : Nat)
    (hw : isWordChar (base64Char n) = true) :
    (base64Char n).isAlphanum = true := by
  by_cases h : n < 64
  · have hall : ∀ m, m < 64 → (isWordChar (base64Char m) = true →
        (base64Char m).isAlphanum = true) := by decide
    exact hall n h hw
  · have hA : base64Char n = 'A' := by
      unfold base64Char
      apply List.getD_eq_default
      have : (64 : Nat) ≤ n := Nat.le_of_not_lt h
      simpa [base64Alphabet] using this
    rw [hA]
    decide

/-- Claim C9: the two lookup entry points, `POST /token-enviado` (email
from the request body) and `GET /token-enviado` (email from the query
string), are behaviorally equivalent: for the same email value and the
same store state they produce identical results and identical store
effects, both delegating to `obtenerToken`. -/
theorem postTokenEnviado_eq_getTokenEnviado :
    ∀ (correo : Option String) (s : Store) (ahora : Nat),
      postTokenEnviado correo s ahora = getTokenEnviado correo s ahora :=
  fun _ _ _ => rfl

/-- Claim C10: an empty-string email (or empty-string `tipo` for
issuance) is treated exactly like an absent field at every public
operation, because presence is tested by JS falsiness: issuance and both
lookup entry points reject it with the validation error and perform no
side effects (store, counter and mail collaborator untouched). -/
theorem emptyString_behaves_as_absent :
    ∀ (correo tipo : Option String) (token : String)
      (sendError : Option String) (now ttlMin ahora : Nat) (s : Store)
      (counter : Nat),
      enviarToken (some "") tipo token sendError now ttlMin s counter =
        enviarToken none tipo token sendError now ttlMin s counter ∧
      enviarToken correo (some "") token sendError now ttlMin s counter =
        enviarToken correo none token sendError now ttlMin s counter ∧
      postTokenEnviado (some "") s ahora = postTokenEnviado none s ahora ∧
      getTokenEnviado (some "") s ahora = getTokenEnviado none s ahora ∧
      enviarToken (some "") tipo token sendError now ttlMin s counter =
        ⟨.validationError "Faltan datos: correo o tipo", s, counter, false⟩ ∧
      enviarToken correo (some "") token sendError now ttlMin s counter =
        ⟨.validationError "Faltan datos: correo o tipo", s, counter, false⟩ ∧
      postTokenEnviado (some "") s ahora = (.missingCorreo, s) ∧
      getTokenEnviado (some "") s ahora = (.missingCorreo, s) := by
  intro correo tipo token sendError now ttlMin ahora s counter
  refine ⟨?_, ?_, rfl, rfl, rfl, ?_, rfl, rfl⟩ <;>
    simp [enviarToken, falsy, postTokenEnviado, getTokenEnviado]

/-- Claim C4: an issuance call with a missing (falsy) `correo` or
`tipo`, or with `tipo` outside {registro, recuperacion}, fails with the
validation error before any side effect: the mail collaborator is not
invoked, the store is unchanged and the tokens-generated counter is not
incremented. -/
theorem enviarToken_validationError (correo tipo : Option String)
    (token : String) (sendError : Option String) (now ttlMin : Nat)
    (s : Store) (counter : Nat)
    (h : falsy correo = true ∨ falsy tipo = true ∨
      (tipo ≠ some "registro" ∧ tipo ≠ some "recuperacion")) :
    (enviarToken correo tipo token sendError now ttlMin s counter).result.isValidation
      = true ∧
    (enviarToken correo tipo token sendError now ttlMin s counter).store = s ∧
    (enviarToken correo tipo token sendError now ttlMin s counter).tokensCounter
      = counter ∧
    (enviarToken correo tipo token sendError now ttlMin s counter).mailInvoked
      = false := by
  by_cases hf : (falsy correo || falsy tipo) = true
  · simp [enviarToken, hf, IssueResult.isValidation]
  · have hf' : falsy correo = false ∧ falsy tipo = false := by
      constructor <;> revert hf <;> cases falsy correo <;>
        cases falsy tipo <;> simp
    rcases h with h | h | h
    · rw [h] at hf'; exact absurd hf'.1 (by simp)
    · rw [h] at hf'; exact absurd hf'.2 (by simp)
    · cases tipo with
      | none => exact absurd hf'.2 (by simp [falsy])
      | some t =>
        have ht1 : t ≠ "registro" := fun hh => h.1 (by rw [hh])
        have ht2 : t ≠ "recuperacion" := fun hh => h.2 (by rw [hh])
        simp [enviarToken, hf'.1, hf'.2, Option.getD, ht1, ht2,
          IssueResult.isValidation]

/-- Witness for C4 at a concrete input: `tipo = "otro"` is rejected with
no side effects. -/
theorem enviarToken_validationError_witness :
    (enviarToken (some "a@b.c") (some "otro") "TOK" none 0 15 [] 0).result.isValidation
      = true ∧
    (enviarToken (some "a@b.c") (some "otro") "TOK" none 0 15 [] 0).store = [] ∧
    (enviarToken (some "a@b.c") (some "otro") "TOK" none 0 15 [] 0).tokensCounter
      = 0 ∧
    (enviarToken (some "a@b.c") (some "otro") "TOK" none 0 15 [] 0).mailInvoked
      = false :=
  enviarToken_validationError (some "a@b.c") (some "otro") "TOK" none 0 15 [] 0
    (Or.inr (Or.inr ⟨by decide, by decide⟩))

/-- Claim C6, counterexample: the token generator does not always return
a string of length exactly 8.  For the byte draw 251 239 190 251 239 190
the base64 encoding is eight `+` characters, all of which are stripped
by `replace(/\W/g, "")`, so the token is the empty string. -/
theorem generarToken_length_not_8 :
    (generarToken 251 239 190 251 239 190).length = 0 ∧
    ¬ (generarToken 251 239 190 251 239 190).length = 8 := by
  constructor <;> decide

/-- Claim C6, amended: every call of the token generator succeeds (it is
a total function of the random bytes), and returns a string of length at
most 8 whose characters are all alphanumeric; the length can be less
than 8 because the non-word base64 characters `+` and `/` are stripped
before `substring(0, 8)`. -/
theorem generarToken_le8_alphanumeric :
    ∀ b0 b1 b2 b3 b4 b5 : Nat,
      (generarToken b0 b1 b2 b3 b4 b5).length ≤ 8 ∧
      ∀ c ∈ (generarToken b0 b1 b2 b3 b4 b5).data, c.isAlphanum = true := by
  intro b0 b1 b2 b3 b4 b5
  constructor
  · show (List.take 8 _).length ≤ 8
    simp
  · intro c hc
    have h1 : c ∈ List.filter isWordChar
        ((sextets3 (b0 % 256) (b1 % 256) (b2 % 256) ++
          sextets3 (b3 % 256) (b4 % 256) (b5 % 256)).map base64Char) :=
      List.mem_of_mem_take hc
    obtain ⟨hcin, hw⟩ := List.mem_filter.mp h1
    obtain ⟨n, _, rfl⟩ := List.mem_map.mp hcin
    exact base64Char_word_alnum n hw

/-- Witness for the amended C6 at a concrete byte draw. -/
theorem generarToken_le8_alphanumeric_witness :
    (generarToken 1 2 3 4 5 6).length ≤ 8 ∧
    ∀ c ∈ (generarToken 1 2 3 4 5 6).data, c.isAlphanum = true :=
  generarToken_le8_alphanumeric 1 2 3 4 5 6

/-- Claim C8: one pass of the expiry sweep, run at time `ahora` over any
store state, removes exactly the entries with `ahora > expira` and keeps
every unexpired entry unchanged (the result is a sublist of the store);
a sweep pass is a total function and never fails. -/
theorem limpiezaTokens_removes_exactly_expired :
    ∀ (s : Store) (ahora : Nat),
      List.Sublist (limpiezaTokens s ahora) s ∧
      ∀ e : String × TokenRecord,
        e ∈ limpiezaTokens s ahora ↔ e ∈ s ∧ ¬ ahora > e.2.expira := by
  intro s ahora
  constructor
  · exact List.filter_sublist s
  · intro e
    simp [limpiezaTokens, List.mem_filter]

/-- Claim C1: for a valid email/`tipo` pair, a successful issuance
followed by a lookup for that email before expiry returns the 200
response carrying exactly the committed record (whose token is the value
the issuance returned), the lookup leaves the store unchanged, and a
repeated lookup returns the same result again. -/
theorem issueToken_then_lookupToken (c t token : String)
    (now ttlMin ahora : Nat) (s : Store) (counter : Nat)
    (hc : c ≠ "") (ht : t = "registro" ∨ t = "recuperacion")
    (hbefore : ahora ≤ now + ttlMin * 60000) :
    (enviarToken (some c) (some t) token none now ttlMin s counter).result =
      .ok token t ∧
    obtenerToken c
        (enviarToken (some c) (some t) token none now ttlMin s counter).store
        ahora =
      (.ok c ⟨token, t, now, now + ttlMin * 60000⟩,
       (enviarToken (some c) (some t) token none now ttlMin s counter).store) ∧
    obtenerToken c
        (obtenerToken c
          (enviarToken (some c) (some t) token none now ttlMin s counter).store
          ahora).2 ahora =
      obtenerToken c
        (enviarToken (some c) (some t) token none now ttlMin s counter).store
        ahora := by
  have hstore :
      (enviarToken (some c) (some t) token none now ttlMin s counter).store =
        Store.set s c ⟨token, t, now, now + ttlMin * 60000⟩ := by
    rcases ht with ht | ht <;> subst ht <;> simp [enviarToken, falsy, hc]
  have hres :
      (enviarToken (some c) (some t) token none now ttlMin s counter).result =
        .ok token t := by
    rcases ht with ht | ht <;> subst ht <;> simp [enviarToken, falsy, hc]
  have hlook :
      obtenerToken c (Store.set s c ⟨token, t, now, now + ttlMin * 60000⟩)
          ahora =
        (.ok c ⟨token, t, now, now + ttlMin * 60000⟩,
         Store.set s c ⟨token, t, now, now + ttlMin * 60000⟩) := by
    unfold obtenerToken
    rw [Store.get_set_self]
    simp [Nat.not_lt.mpr hbefore]
  refine ⟨hres, ?_, ?_⟩
  · rw [hstore]
    exact hlook
  · rw [hstore, hlook]
    exact hlook

/-- Witness for C1 at a concrete input: issue for `a@b.c` at time 0 with
TTL 15 minutes, then look up at 1000 ms. -/
theorem issueToken_then_lookupToken_witness :
    ("a@b.c" : String) ≠ "" ∧ (1000 : Nat) ≤ 0 + 15 * 60000 ∧
    ((enviarToken (some "a@b.c") (some "registro") "TOK" none 0 15 [] 0).result =
      .ok "TOK" "registro" ∧
    obtenerToken "a@b.c"
        (enviarToken (some "a@b.c") (some "registro") "TOK" none 0 15 [] 0).store
        1000 =
      (.ok "a@b.c" ⟨"TOK", "registro", 0, 0 + 15 * 60000⟩,
       (enviarToken (some "a@b.c") (some "registro") "TOK" none 0 15 [] 0).store) ∧
    obtenerToken "a@b.c"
        (obtenerToken "a@b.c"
          (enviarToken (some "a@b.c") (some "registro") "TOK" none 0 15 [] 0).store
          1000).2 1000 =
      obtenerToken "a@b.c"
        (enviarToken (some "a@b.c") (some "registro") "TOK" none 0 15 [] 0).store
        1000) :=
  ⟨by decide, by decide,
   issueToken_then_lookupToken "a@b.c" "registro" "TOK" 0 15 1000 [] 0
     (by decide) (Or.inl rfl) (by decide)⟩

/-- Claim C2: a record is expired iff the current time is strictly
greater than its `expira`; a lookup with `ahora > expira` evicts the
record (it is absent from the resulting store even before any sweep
runs) and responds 410, while a lookup with `ahora ≤ expira` responds
200 with the record. -/
theorem obtenerToken_expiry (correo : String) (s : Store)
    (data : TokenRecord) (ahora : Nat) (hwf : s.WF)
    (hget : Store.get s correo = some data) :
    (ahora > data.expira →
      obtenerToken correo s ahora = (.expired, Store.delete s correo) ∧
      Store.get (obtenerToken correo s ahora).2 correo = none) ∧
    (ahora ≤ data.expira →
      obtenerToken correo s ahora = (.ok correo data, s)) := by
  constructor
  · intro hexp
    have heq : obtenerToken correo s ahora =
        (.expired, Store.delete s correo) := by
      unfold obtenerToken
      rw [hget]
      simp [hexp]
    refine ⟨heq, ?_⟩
    rw [heq]
    exact Store.get_delete_self s correo hwf
  · intro hle
    unfold obtenerToken
    rw [hget]
    simp [Nat.not_lt.mpr hle]

/-- Witness for C2 with TTL 15 minutes (expiry at 900000 ms): lookup at
14m59s (899000 ms) succeeds, lookup at 15m01s (901000 ms) responds 410
and evicts the record. -/
theorem obtenerToken_expiry_witness :
    (obtenerToken "a@b.c" [("a@b.c", ⟨"TOK", "registro", 0, 900000⟩)] 901000 =
      (.expired, Store.delete [("a@b.c", ⟨"TOK", "registro", 0, 900000⟩)] "a@b.c") ∧
     Store.get
       (obtenerToken "a@b.c" [("a@b.c", ⟨"TOK", "registro", 0, 900000⟩)] 901000).2
       "a@b.c" = none) ∧
    obtenerToken "a@b.c" [("a@b.c", ⟨"TOK", "registro", 0, 900000⟩)] 899000 =
      (.ok "a@b.c" ⟨"TOK", "registro", 0, 900000⟩,
       [("a@b.c", ⟨"TOK", "registro", 0, 900000⟩)]) :=
  ⟨(obtenerToken_expiry "a@b.c" [("a@b.c", ⟨"TOK", "registro", 0, 900000⟩)]
      ⟨"TOK", "registro", 0, 900000⟩ 901000 (by decide) (by decide)).1
    (by decide),
   (obtenerToken_expiry "a@b.c" [("a@b.c", ⟨"TOK", "registro", 0, 900000⟩)]
      ⟨"TOK", "registro", 0, 900000⟩ 899000 (by decide) (by decide)).2
    (by decide)⟩

/-- Claim C3: when the mail collaborator fails on a validation-passing
issuance, the handler responds with the delivery error carrying the
underlying cause, commits no record (the store is unchanged), and a
subsequent lookup for that email — absent any prior surviving record —
responds 404. -/
theorem enviarToken_deliveryError_atomic (c t token msg : String)
    (now ttlMin ahora : Nat) (s : Store) (counter : Nat)
    (hc : c ≠ "") (ht : t = "registro" ∨ t = "recuperacion") :
    (enviarToken (some c) (some t) token (some msg) now ttlMin s counter).result
      = .deliveryError msg ∧
    (enviarToken (some c) (some t) token (some msg) now ttlMin s counter).store
      = s ∧
    (Store.get s c = none →
      obtenerToken c
        (enviarToken (some c) (some t) token (some msg) now ttlMin s counter).store
        ahora = (.notFound, s)) := by
  have hstore :
      (enviarToken (some c) (some t) token (some msg) now ttlMin s counter).store
        = s := by
    rcases ht with ht | ht <;> subst ht <;> simp [enviarToken, falsy, hc]
  refine ⟨?_, hstore, ?_⟩
  · rcases ht with ht | ht <;> subst ht <;> simp [enviarToken, falsy, hc]
  · intro hnone
    rw [hstore]
    unfold obtenerToken
    rw [hnone]

/-- Witness for C3 at a concrete input: a rejected send for `a@b.c` on
the empty store. -/
theorem enviarToken_deliveryError_atomic_witness :
    ("a@b.c" : String) ≠ "" ∧
    Store.get [] "a@b.c" = none ∧
    (enviarToken (some "a@b.c") (some "recuperacion") "TOK" (some "boom") 0 15 [] 0).result
      = .deliveryError "boom" ∧
    (enviarToken (some "a@b.c") (some "recuperacion") "TOK" (some "boom") 0 15 [] 0).store
      = [] ∧
    obtenerToken "a@b.c"
        (enviarToken (some "a@b.c") (some "recuperacion") "TOK" (some "boom") 0 15 [] 0).store
        0 = (.notFound, []) :=
  ⟨by decide, rfl,
   (enviarToken_deliveryError_atomic "a@b.c" "recuperacion" "TOK" "boom" 0 15 0
     [] 0 (by decide) (Or.inr rfl)).1,
   (enviarToken_deliveryError_atomic "a@b.c" "recuperacion" "TOK" "boom" 0 15 0
     [] 0 (by decide) (Or.inr rfl)).2.1,
   (enviarToken_deliveryError_atomic "a@b.c" "recuperacion" "TOK" "boom" 0 15 0
     [] 0 (by decide) (Or.inr rfl)).2.2 rfl⟩

/-- Claim C7: the tokens-generated counter is incremented by exactly one
on every issuance call that passes input validation, regardless of the
send outcome — in particular it is incremented even when the send fails
and no record is stored — and the counter never decreases on any call. -/
theorem tokensCounter_incremented (c t token : String)
    (sendError : Option String) (now ttlMin : Nat) (s : Store)
    (counter : Nat) (hc : c ≠ "")
    (ht : t = "registro" ∨ t = "recuperacion") :
    (enviarToken (some c) (some t) token sendError now ttlMin s counter).tokensCounter
      = counter + 1 ∧
    (enviarToken (some c) (some t) token sendError now ttlMin s counter).mailInvoked
      = true ∧
    (∀ msg,
      (enviarToken (some c) (some t) token (some msg) now ttlMin s counter).store
        = s) ∧
    (∀ (correo2 tipo2 : Option String) (sendError2 : Option String),
      counter ≤
        (enviarToken correo2 tipo2 token sendError2 now ttlMin s counter).tokensCounter) := by
  refine ⟨?_, ?_, ?_, ?_⟩
  · rcases ht with ht | ht <;> subst ht <;> cases sendError <;>
      simp [enviarToken, falsy, hc]
  · rcases ht with ht | ht <;> subst ht <;> cases sendError <;>
      simp [enviarToken, falsy, hc]
  · intro msg
    rcases ht with ht | ht <;> subst ht <;> simp [enviarToken, falsy, hc]
  · intro correo2 tipo2 sendError2
    unfold enviarToken
    split
    · exact Nat.le_refl counter
    · split
      · exact Nat.le_refl counter
      · cases sendError2 <;> simp

/-- Witness for C7 at a concrete input: a failed send still bumps the
counter from 5 to 6 and stores nothing. -/
theorem tokensCounter_incremented_witness :
    ("a@b.c" : String) ≠ "" ∧
    ((enviarToken (some "a@b.c") (some "registro") "TOK" (some "boom") 0 15 [] 5).tokensCounter
      = 5 + 1 ∧
    (enviarToken (some "a@b.c") (some "registro") "TOK" (some "boom") 0 15 [] 5).mailInvoked
      = true ∧
    (∀ msg,
      (enviarToken (some "a@b.c") (some "registro") "TOK" (some msg) 0 15 [] 5).store
        = []) ∧
    (∀ (correo2 tipo2 : Option String) (sendError2 : Option String),
      5 ≤
        (enviarToken correo2 tipo2 "TOK" sendError2 0 15 [] 5).tokensCounter)) :=
  ⟨by decide,
   tokensCounter_incremented "a@b.c" "registro" "TOK" (some "boom") 0 15 [] 5
     (by decide) (Or.inl rfl)⟩

/-- Claim C5: the store holds at most one record per email — the JS
`Map` key-uniqueness invariant is preserved by issuance, lookup (with
its eviction) and the sweep — and a successful issuance for an email
unconditionally replaces any existing record for that key: after
issuing twice for the same email, a lookup before the second expiry
returns exactly the second record, so the first token is no longer
retrievable even if not yet expired. -/
theorem store_one_record_per_email (c t1 t2 tok1 tok2 : String)
    (now1 now2 ttlMin ahora : Nat) (s : Store) (counter1 counter2 : Nat)
    (hwf : s.WF) (hc : c ≠ "")
    (ht1 : t1 = "registro" ∨ t1 = "recuperacion")
    (ht2 : t2 = "registro" ∨ t2 = "recuperacion")
    (hbefore : ahora ≤ now2 + ttlMin * 60000) :
    (∀ (correo2 tipo2 : Option String) (token2 : String)
      (sendError2 : Option String) (now3 counter3 : Nat),
      Store.WF
        (enviarToken correo2 tipo2 token2 sendError2 now3 ttlMin s counter3).store) ∧
    (∀ (correo2 : String) (ahora2 : Nat),
      Store.WF (obtenerToken correo2 s ahora2).2) ∧
    (∀ ahora2 : Nat, Store.WF (limpiezaTokens s ahora2)) ∧
    obtenerToken c
        (enviarToken (some c) (some t2) tok2 none now2 ttlMin
          (enviarToken (some c) (some t1) tok1 none now1 ttlMin s counter1).store
          counter2).store ahora =
      (.ok c ⟨tok2, t2, now2, now2 + ttlMin * 60000⟩,
       (enviarToken (some c) (some t2) tok2 none now2 ttlMin
          (enviarToken (some c) (some t1) tok1 none now1 ttlMin s counter1).store
          counter2).store) := by
  have hstore1 :
      (enviarToken (some c) (some t1) tok1 none now1 ttlMin s counter1).store =
        Store.set s c ⟨tok1, t1, now1, now1 + ttlMin * 60000⟩ := by
    rcases ht1 with ht | ht <;> subst ht <;> simp [enviarToken, falsy, hc]
  have hstore2 :
      (enviarToken (some c) (some t2) tok2 none now2 ttlMin
          (enviarToken (some c) (some t1) tok1 none now1 ttlMin s counter1).store
          counter2).store =
        Store.set
          (Store.set s c ⟨tok1, t1, now1, now1 + ttlMin * 60000⟩) c
          ⟨tok2, t2, now2, now2 + ttlMin * 60000⟩ := by
    rw [← hstore1]
    rcases ht2 with ht | ht <;> subst ht <;> simp [enviarToken, falsy, hc]
  refine ⟨?_, ?_, ?_, ?_⟩
  · intro correo2 tipo2 token2 sendError2 now3 counter3
    unfold enviarToken
    split
    · exact hwf
    · split
      · exact hwf
      · cases sendError2 with
        | some msg => exact hwf
        | none => exact Store.wf_set s _ _ hwf
  · intro correo2 ahora2
    unfold obtenerToken
    rcases hget : Store.get s correo2 with _ | data
    · exact hwf
    · by_cases hexp : ahora2 > data.expira
      · simp only [hexp, if_pos]
        exact Store.wf_delete s correo2 hwf
      · simp only [hexp, if_neg, not_false_iff]
        exact hwf
  · intro ahora2
    exact List.Nodup.sublist
      (List.Sublist.map Prod.fst (List.filter_sublist s)) hwf
  · rw [hstore2]
    unfold obtenerToken
    rw [Store.get_set_self]
    simp [Nat.not_lt.mpr hbefore]

/-- Witness for C5 at a concrete input: two issuances for `a@b.c`, the
second at one minute (60000 ms), looked up at 61000 ms. -/
theorem store_one_record_per_email_witness :
    Store.WF ([] : Store) ∧ ("a@b.c" : String) ≠ "" ∧
    (61000 : Nat) ≤ 60000 + 15 * 60000 ∧
    ((∀ (correo2 tipo2 : Option String) (token2 : String)
      (sendError2 : Option String) (now3 counter3 : Nat),
      Store.WF
        (enviarToken correo2 tipo2 token2 sendError2 now3 15 [] counter3).store) ∧
    (∀ (correo2 : String) (ahora2 : Nat),
      Store.WF (obtenerToken correo2 [] ahora2).2) ∧
    (∀ ahora2 : Nat, Store.WF (limpiezaTokens [] ahora2)) ∧
    obtenerToken "a@b.c"
        (enviarToken (some "a@b.c") (some "registro") "TOK2" none 60000 15
          (enviarToken (some "a@b.c") (some "registro") "TOK1" none 0 15 [] 0).store
          1).store 61000 =
      (.ok "a@b.c" ⟨"TOK2", "registro", 60000, 60000 + 15 * 60000⟩,
       (enviarToken (some "a@b.c") (some "registro") "TOK2" none 60000 15
          (enviarToken (some "a@b.c") (some "registro") "TOK1" none 0 15 [] 0).store
          1).store)) :=
  ⟨by decide, by decide, by decide,
   store_one_record_per_email "a@b.c" "registro" "registro" "TOK1" "TOK2"
     0 60000 15 61000 [] 0 1 (by decide) (by decide) (Or.inl rfl)
     (Or.inl rfl) (by decide)⟩

end MiniAuth
